import Mathlib

/-!
Verification development for the listing-optimization repository.

Strings are modelled as `List Char`.  Python's `str.strip` is `pyStrip`,
the two ASIN-extraction regexes of `keepa_client.py` and `scraper.py` are
modelled character by character (`dpMatchAt`, `gpMatchAt`, `dpGpMatchAt`,
`reSearch`), and the UI batch/export flows are modelled with explicit
oracles for the external Keepa / HTTP / OpenAI calls, with raised Python
exceptions modelled by `Except`.
-/

/-- ASCII alphanumeric character class, the `[A-Za-z0-9]` of both regexes. -/
def isAlnumAscii (c : Char) : Bool :=
  (65 ≤ c.toNat && c.toNat ≤ 90) || (97 ≤ c.toNat && c.toNat ≤ 122) ||
    (48 ≤ c.toNat && c.toNat ≤ 57)

/-- Python `str.strip()`: drop whitespace from both ends. -/
def pyStrip (s : List Char) : List Char :=
  ((s.dropWhile Char.isWhitespace).reverse.dropWhile Char.isWhitespace).reverse

/-- Case-insensitive match of one input char `c` against a lowercase pattern
char `p` (`re.IGNORECASE` restricted to the ASCII patterns in the source). -/
def charMatchCI (p c : Char) : Bool :=
  c == p || (65 ≤ c.toNat && c.toNat ≤ 90 && c.toNat + 32 == p.toNat)

/-- Does `s` start with the (lowercase) literal pattern `pat`, case-insensitively? -/
def prefixCI : List Char → List Char → Bool
  | [], _ => true
  | _ :: _, [] => false
  | p :: ps, c :: cs => charMatchCI p c && prefixCI ps cs

/-- The capturing group `([A-Za-z0-9]{10})`: succeed iff the next 10 chars
exist and are alphanumeric, returning them. -/
def takeAlnum10 (s : List Char) : Option (List Char) :=
  if (s.take 10).length = 10 ∧ (s.take 10).all isAlnumAscii then some (s.take 10)
  else none

/-- One attempt of `/dp/([A-Za-z0-9]{10})` anchored at the start of `s`. -/
def dpMatchAt (s : List Char) : Option (List Char) :=
  if prefixCI "/dp/".toList s then takeAlnum10 (s.drop 4) else none

/-- One attempt of `/gp/product/([A-Za-z0-9]{10})` anchored at the start of `s`. -/
def gpMatchAt (s : List Char) : Option (List Char) :=
  if prefixCI "/gp/product/".toList s then takeAlnum10 (s.drop 12) else none

/-- One attempt of the combined scraper pattern
`/(dp|gp/product)/([A-Z0-9]{10})` anchored at the start of `s`; the `dp`
alternative is tried first (they cannot both match at one position). -/
def dpGpMatchAt (s : List Char) : Option (List Char) :=
  match dpMatchAt s with
  | some t => some t
  | none => gpMatchAt s

/-- `re.search`: try the anchored matcher at each position left to right. -/
def reSearch (m : List Char → Option (List Char)) : List Char → Option (List Char)
  | [] => m []
  | c :: cs =>
    match m (c :: cs) with
    | some t => some t
    | none => reSearch m cs

/-- The `re.fullmatch(r"[A-Za-z0-9]{10}", ident)` test of `keepa_client.py`
(and the equivalent `re.fullmatch(r"[A-Z0-9]{10}", ..., re.IGNORECASE)` of
`scraper.py`). -/
def isPlainAsin (s : List Char) : Bool :=
  s.length == 10 && s.all isAlnumAscii

/-- `keepa_client.extract_asin_from_input`: strip, try the full 10-char match,
then search for `/dp/<10 alnum>`, then for `/gp/product/<10 alnum>`. -/
def extract_asin_from_input (identifier : List Char) : Option (List Char) :=
  let ident := pyStrip identifier
  if isPlainAsin ident then some (ident.map Char.toUpper)
  else
    match reSearch dpMatchAt ident with
    | some t => some (t.map Char.toUpper)
    | none =>
      match reSearch gpMatchAt ident with
      | some t => some (t.map Char.toUpper)
      | none => none

/-- `scraper.extract_asin`: strip, try the full 10-char match, then search
the combined pattern `/(dp|gp/product)/([A-Z0-9]{10})`. -/
def extract_asin (identifier : List Char) : Option (List Char) :=
  let ident := pyStrip identifier
  if isPlainAsin ident then some (ident.map Char.toUpper)
  else
    match reSearch dpGpMatchAt ident with
    | some t => some (t.map Char.toUpper)
    | none => none

/-- One product record as returned by the Keepa API (`api.query`); fields the
source reads with `product.get(...)`, absent or `None` modelled as `none`. -/
structure KeepaProduct where
  title : Option (List Char)
  features : Option (List (List Char))
  description : Option (List Char)

/-- The dict returned by `get_listing_from_keepa` on success. -/
structure KeepaListing where
  asin : List Char
  title : List Char
  bullets : List (List Char)
  description : List Char

/-- `keepa_client.get_listing_from_keepa`, with the external `api.query`
call passed as an oracle `query asin domain`; Python's raised `ValueError`s
become `Except.error`. -/
def get_listing_from_keepa (query : List Char → List Char → List KeepaProduct)
    (identifier domain : List Char) : Except (List Char) KeepaListing :=
  match extract_asin_from_input identifier with
  | none => .error ("Could not find a valid ASIN in: ".toList ++ identifier)
  | some asin =>
    match query asin domain with
    | [] => .error ("Keepa returned no product for ASIN ".toList ++ asin)
    | product :: _ =>
      .ok ⟨asin, product.title.getD [], product.features.getD [],
           product.description.getD []⟩

/-- What BeautifulSoup extraction yields from the fetched Amazon page:
presence and text of the CSS-selector targets used by `scraper.py`. -/
structure ScrapedPage where
  productTitle : Option (List Char)
  featureBullets : List (List Char)
  productDescription : Option (List Char)
  bookDescription : Option (List Char)

/-- An HTTP response for the scraper: status code plus the parsed page. -/
structure HtmlResponse where
  status : Nat
  page : ScrapedPage

/-- The dict built by `scraper.fetch_listing` / `fetch_listing_by_asin`;
`bullets` is a single joined string in the scraper. -/
structure ScrapedRecord where
  asin : List Char
  title : List Char
  bullets : List Char
  description : List Char
  error : List Char

/-- Does the second list start with the first one (exact chars)? -/
def listStartsWith : List Char → List Char → Bool
  | [], _ => true
  | _ :: _, [] => false
  | p :: ps, c :: cs => p == c && listStartsWith ps cs

/-- Python's substring test `pat in s` for strings. -/
def listContainsSub (pat : List Char) : List Char → Bool
  | [] => listStartsWith pat []
  | c :: cs => listStartsWith pat (c :: cs) || listContainsSub pat cs

/-- Decimal digit characters. -/
def digitChar : Nat → Char
  | 0 => '0' | 1 => '1' | 2 => '2' | 3 => '3' | 4 => '4'
  | 5 => '5' | 6 => '6' | 7 => '7' | 8 => '8' | 9 => '9'
  | _ => '0'

/-- Decimal rendering of a natural number (Python `str(n)` for `n : int ≥ 0`). -/
def natToDigits (n : Nat) : List Char :=
  if _h : n < 10 then [digitChar n]
  else natToDigits (n / 10) ++ [digitChar (n % 10)]
decreasing_by exact Nat.div_lt_self (by omega) (by omega)

/-- `scraper.fetch_listing_by_asin`, with the HTTP GET + HTML parse passed
as an oracle `http asin`. -/
def fetch_listing_by_asin (http : List Char → HtmlResponse) (asin : List Char) :
    ScrapedRecord :=
  let resp := http asin
  if resp.status ≠ 200 then
    ⟨asin, [], [], [],
     "HTTP ".toList ++ natToDigits resp.status ++
       " when fetching https://www.amazon.com/dp/".toList ++ asin⟩
  else
    let title := resp.page.productTitle.getD []
    let bullets_list := resp.page.featureBullets.filter fun txt =>
      !txt.isEmpty &&
        !listContainsSub "click to open expanded".toList (txt.map Char.toLower)
    let bullets := List.intercalate ['\n'] (bullets_list.map fun b => '-' :: ' ' :: b)
    let desc0 := resp.page.productDescription.getD []
    let desc := if desc0.isEmpty then resp.page.bookDescription.getD [] else desc0
    ⟨asin, title, bullets, desc, []⟩

/-- `scraper.fetch_listing`: resolve the identifier, then fetch; an
unresolvable identifier yields an error-carrying record. -/
def fetch_listing (http : List Char → HtmlResponse) (identifier : List Char) :
    ScrapedRecord :=
  match extract_asin identifier with
  | none => ⟨[], [], [], [], "Could not extract ASIN from: ".toList ++ identifier⟩
  | some asin => fetch_listing_by_asin http asin

/-- Python `str.splitlines`, restricted to the line breaks `\n`, `\r`,
`\r\n` (accumulator holds the current line reversed). -/
def splitlinesAux : List Char → List Char → List (List Char)
  | [], acc => if acc.isEmpty then [] else [acc.reverse]
  | '\r' :: '\n' :: rest, acc => acc.reverse :: splitlinesAux rest []
  | '\r' :: rest, acc => acc.reverse :: splitlinesAux rest []
  | '\n' :: rest, acc => acc.reverse :: splitlinesAux rest []
  | c :: rest, acc => splitlinesAux rest (c :: acc)

/-- Python `str.splitlines` (no trailing empty line after a final newline). -/
def splitlines (s : List Char) : List (List Char) :=
  splitlinesAux s []

/-- `[line.strip() for line in identifiers_text.splitlines() if line.strip()]`. -/
def cleanLines (identifiers_text : List Char) : List (List Char) :=
  ((splitlines identifiers_text).map pyStrip).filter fun l => !l.isEmpty

/-- Python truthiness default `s or dflt` for strings. -/
def pyOr (s dflt : List Char) : List Char :=
  if s.isEmpty then dflt else s

/-- `"\n".join(f"- {b}" for b in bullets_list)` from the batch flow. -/
def bulletsText (bullets_list : List (List Char)) : List Char :=
  List.intercalate ['\n'] (bullets_list.map fun b => '-' :: ' ' :: b)

/-- The inline per-line error block
`f"## {identifier}\n\n❌ Error fetching from Keepa: \x60{str(e)}\x60\n\n---\n"`. -/
def errorBlock (identifier e : List Char) : List Char :=
  "## ".toList ++ identifier ++
    "\n\n❌ Error fetching from Keepa: `".toList ++ e ++ "`\n\n---\n".toList

/-- The per-line success block f-string of the batch flow, before `.strip()`. -/
def blockRaw (identifier asin title bullets_text description audit_text
    optimized_text : List Char) : List Char :=
  "\n## ".toList ++ identifier ++ "  _(ASIN: ".toList ++ asin ++
    ")_\n\n### 🧾 Original Title\n".toList ++
    pyOr title "_(no title found)_".toList ++
    "\n\n### 📌 Original Bullets\n".toList ++
    pyOr bullets_text "_(no bullets found)_".toList ++
    "\n\n### 📝 Original Description\n".toList ++
    pyOr description "_(no description found)_".toList ++
    "\n\n---\n\n### 🔍 AI Audit\n".toList ++ audit_text ++
    "\n\n---\n\n### ✏️ Optimized Listing\n".toList ++ optimized_text ++
    "\n\n---\n\n".toList

/-- The Python `for` loop over batch lines: stop at the first uncaught
exception (`Except.error`), otherwise collect every appended block. -/
def mapExcept {γ : Type} (f : List Char → Except γ (List Char)) :
    List (List Char) → Except γ (List (List Char))
  | [] => .ok []
  | x :: xs =>
    match f x with
    | .error g => .error g
    | .ok b =>
      match mapExcept f xs with
      | .error g => .error g
      | .ok bs => .ok (b :: bs)

/-- The body of the batch loop for one line: the `try/except` covers only the
`get_listing_from_keepa` call (`fetch`); errors of the generation oracles
`auditO` / `rewriteO` (the `audit_listing` / `rewrite_listing` calls)
propagate. -/
def processLine {γ : Type} (fetch : List Char → Except (List Char) KeepaListing)
    (auditO : List Char → List Char → List Char → List Char → List Char →
      Except γ (List Char))
    (rewriteO : List Char → List Char → List Char → List Char → List Char →
      List Char → List Char → List Char → Except γ (List Char))
    (target_keywords category audience identifier : List Char) :
    Except γ (List Char) :=
  match fetch identifier with
  | .error e => .ok (errorBlock identifier e)
  | .ok listing =>
    let bt := bulletsText listing.bullets
    match auditO listing.title bt listing.description [] target_keywords with
    | .error g => .error g
    | .ok audit_text =>
      match rewriteO listing.title bt listing.description [] target_keywords
          category audience audit_text with
      | .error g => .error g
      | .ok optimized_text =>
        .ok (pyStrip (blockRaw identifier listing.asin listing.title bt
          listing.description audit_text optimized_text))

/-- `ui.optimize_from_identifiers_ui`: split into stripped non-empty lines,
process each line in order, join the blocks with a blank line. -/
def optimize_from_identifiers_ui {γ : Type}
    (fetch : List Char → Except (List Char) KeepaListing)
    (auditO : List Char → List Char → List Char → List Char → List Char →
      Except γ (List Char))
    (rewriteO : List Char → List Char → List Char → List Char → List Char →
      List Char → List Char → List Char → Except γ (List Char))
    (identifiers_text target_keywords category audience : List Char) :
    Except γ (List Char) :=
  let lines := cleanLines identifiers_text
  if lines.isEmpty then
    .ok "⚠️ No ASINs or URLs provided. Please add one per line.".toList
  else
    match mapExcept (processLine fetch auditO rewriteO target_keywords category
        audience) lines with
    | .error g => .error g
    | .ok results => .ok (List.intercalate "\n\n".toList results)

/-- `ui.optimize_manual_ui`: audit then rewrite, with no exception handling. -/
def optimize_manual_ui {γ : Type}
    (auditO : List Char → List Char → List Char → List Char → List Char →
      Except γ (List Char))
    (rewriteO : List Char → List Char → List Char → List Char → List Char →
      List Char → List Char → List Char → Except γ (List Char))
    (title bullets description reviews target_keywords category audience :
      List Char) : Except γ (List Char × List Char) :=
  match auditO title bullets description reviews target_keywords with
  | .error g => .error g
  | .ok audit_text =>
    match rewriteO title bullets description reviews target_keywords category
        audience audit_text with
    | .error g => .error g
    | .ok optimized_text => .ok (audit_text, optimized_text)

/-- Left-pad a digit string with zeros to width `k` (C `%0kd`). -/
def padZeros (k : Nat) (s : List Char) : List Char :=
  List.replicate (k - s.length) '0' ++ s

/-- The fields of `datetime.now()` the export code formats. -/
structure PyDateTime where
  year : Nat
  month : Nat
  day : Nat
  hour : Nat
  minute : Nat
  second : Nat

/-- `datetime.strftime("%Y%m%d-%H%M%S")`. -/
def strftimeTs (now : PyDateTime) : List Char :=
  padZeros 4 (natToDigits now.year) ++ padZeros 2 (natToDigits now.month) ++
    padZeros 2 (natToDigits now.day) ++ '-' ::
    (padZeros 2 (natToDigits now.hour) ++ padZeros 2 (natToDigits now.minute) ++
      padZeros 2 (natToDigits now.second))

/-- `ui.export_manual_result`, with the temp directory and the clock passed
in; the file write is modelled by returning the pair (file path, written
content), and the raised `gr.Error` by `Except.error` (no file written). -/
def export_manual_result (tmpdir : List Char) (now : PyDateTime)
    (audit_text optimized_text : List Char) :
    Except (List Char) (List Char × List Char) :=
  if audit_text.isEmpty && optimized_text.isEmpty then
    .error "No results to export. Run an optimization first.".toList
  else
    let content := "=== AUDIT ===\n\n".toList ++ audit_text ++
      "\n\n=== OPTIMIZED LISTING ===\n\n".toList ++ optimized_text ++ ['\n']
    let timestamp := strftimeTs now
    let filename := "listing_manual_".toList ++ timestamp ++ ".txt".toList
    .ok (tmpdir ++ '/' :: filename, content)

theorem reSearch_none_iff (m : List Char → Option (List Char)) (s : List Char) :
    reSearch m s = none ↔ ∀ i, m (s.drop i) = none := by
  induction s with
  | nil =>
    simp only [reSearch, List.drop_nil]
    exact ⟨fun h _ => h, fun h => h 0⟩
  | cons c cs ih =>
    constructor
    · intro h i
      cases hm : m (c :: cs) with
      | some t => simp [reSearch, hm] at h
      | none =>
        simp only [reSearch, hm] at h
        cases i with
        | zero => simpa using hm
        | succ j => simpa [List.drop_succ_cons] using (ih.mp h) j
    · intro h
      have h0 : m (c :: cs) = none := by simpa using h 0
      simp only [reSearch, h0]
      exact ih.mpr fun i => by simpa [List.drop_succ_cons] using h (i + 1)

theorem reSearch_some_exists (m : List Char → Option (List Char)) (s t : List Char)
    (h : reSearch m s = some t) : ∃ i, m (s.drop i) = some t := by
  induction s with
  | nil => exact ⟨0, by simpa [reSearch] using h⟩
  | cons c cs ih =>
    cases hm : m (c :: cs) with
    | some u =>
      refine ⟨0, ?_⟩
      simp only [reSearch, hm] at h
      simpa [hm] using h
    | none =>
      simp only [reSearch, hm] at h
      obtain ⟨i, hi⟩ := ih h
      exact ⟨i + 1, by simpa [List.drop_succ_cons] using hi⟩

theorem reSearch_eq_some_of (m : List Char → Option (List Char)) :
    ∀ (s : List Char) (i : Nat) (t : List Char), m (s.drop i) = some t →
      (∀ j, j < i → m (s.drop j) = none) → reSearch m s = some t := by
  intro s
  induction s with
  | nil =>
    intro i t hi _
    simpa [reSearch, List.drop_nil] using hi
  | cons c cs ih =>
    intro i t hi hj
    cases i with
    | zero =>
      simp only [List.drop_zero] at hi
      simp [reSearch, hi]
    | succ k =>
      have h0 : m (c :: cs) = none := by simpa using hj 0 (Nat.succ_pos k)
      simp only [reSearch, h0]
      exact ih k t (by simpa [List.drop_succ_cons] using hi)
        fun j hjk => by simpa [List.drop_succ_cons] using hj (j + 1) (by omega)

theorem reSearch_congrAt (m₁ m₂ : List Char → Option (List Char)) :
    ∀ s : List Char, (∀ i, m₁ (s.drop i) = m₂ (s.drop i)) →
      reSearch m₁ s = reSearch m₂ s := by
  intro s
  induction s with
  | nil =>
    intro h
    simpa [reSearch, List.drop_nil] using h 0
  | cons c cs ih =>
    intro h
    have h0 : m₁ (c :: cs) = m₂ (c :: cs) := by simpa using h 0
    have hrest : reSearch m₁ cs = reSearch m₂ cs :=
      ih fun i => by simpa [List.drop_succ_cons] using h (i + 1)
    simp only [reSearch, h0, hrest]

theorem dpMatchAt_nil : dpMatchAt [] = none := rfl

theorem gpMatchAt_nil : gpMatchAt [] = none := rfl

theorem dpGpMatchAt_eq_none_iff (s : List Char) :
    dpGpMatchAt s = none ↔ dpMatchAt s = none ∧ gpMatchAt s = none := by
  unfold dpGpMatchAt
  cases h : dpMatchAt s <;> simp [h]

theorem dpGpMatchAt_of_dp (s t : List Char) (h : dpMatchAt s = some t) :
    dpGpMatchAt s = some t := by
  unfold dpGpMatchAt
  simp [h]

theorem dpGpMatchAt_of_gp (s t : List Char) (hdp : dpMatchAt s = none)
    (h : gpMatchAt s = some t) : dpGpMatchAt s = some t := by
  unfold dpGpMatchAt
  simp [hdp, h]

theorem prefixCI_length (ps : List Char) :
    ∀ s : List Char, prefixCI ps s = true → ps.length ≤ s.length := by
  induction ps with
  | nil => intro s _; simp
  | cons p ps ih =>
    intro s h
    cases s with
    | nil => simp [prefixCI] at h
    | cons c cs =>
      simp only [prefixCI, Bool.and_eq_true] at h
      simpa using Nat.succ_le_succ (ih cs h.2)

theorem takeAlnum10_spec (s t : List Char) (h : takeAlnum10 s = some t) :
    t = s.take 10 ∧ t.length = 10 ∧ t.all isAlnumAscii = true := by
  unfold takeAlnum10 at h
  split at h
  · rename_i hcond
    cases h
    exact ⟨rfl, hcond.1, hcond.2⟩
  · simp at h

theorem dpMatchAt_some_length (s t : List Char) (h : dpMatchAt s = some t) :
    14 ≤ s.length := by
  unfold dpMatchAt at h
  split at h
  · rename_i hpre
    have h4 : 4 ≤ s.length := by simpa using prefixCI_length _ s hpre
    obtain ⟨heq, ht, -⟩ := takeAlnum10_spec _ _ h
    have h3 : ((s.drop 4).take 10).length = 10 := by rw [← heq]; exact ht
    have h1 := List.length_take 10 (s.drop 4)
    have h2 := List.length_drop 4 s
    omega
  · simp at h

theorem gpMatchAt_some_length (s t : List Char) (h : gpMatchAt s = some t) :
    22 ≤ s.length := by
  unfold gpMatchAt at h
  split at h
  · rename_i hpre
    have h12 : 12 ≤ s.length := by simpa using prefixCI_length _ s hpre
    obtain ⟨heq, ht, -⟩ := takeAlnum10_spec _ _ h
    have h3 : ((s.drop 12).take 10).length = 10 := by rw [← heq]; exact ht
    have h1 := List.length_take 10 (s.drop 12)
    have h2 := List.length_drop 12 s
    omega
  · simp at h

theorem dpMatchAt_token_length (s t : List Char) (h : dpMatchAt s = some t) :
    t.length = 10 := by
  unfold dpMatchAt at h
  split at h
  · exact (takeAlnum10_spec _ _ h).2.1
  · simp at h

theorem gpMatchAt_token_length (s t : List Char) (h : gpMatchAt s = some t) :
    t.length = 10 := by
  unfold gpMatchAt at h
  split at h
  · exact (takeAlnum10_spec _ _ h).2.1
  · simp at h

theorem dpGpMatchAt_token_length (s t : List Char) (h : dpGpMatchAt s = some t) :
    t.length = 10 := by
  unfold dpGpMatchAt at h
  cases hdp : dpMatchAt s with
  | some u => rw [hdp] at h; cases h; exact dpMatchAt_token_length s _ hdp
  | none => rw [hdp] at h; exact gpMatchAt_token_length s t h

theorem alnum_toNat_ge (c : Char) (h : isAlnumAscii c = true) : 48 ≤ c.toNat := by
  simp only [isAlnumAscii, Bool.or_eq_true, Bool.and_eq_true,
    decide_eq_true_eq] at h
  omega

theorem alnum_not_ws (c : Char) (h : isAlnumAscii c = true) :
    c.isWhitespace = false := by
  have h48 := alnum_toNat_ge c h
  have h1 : c ≠ ' ' := fun he => by subst he; exact absurd h48 (by decide)
  have h2 : c ≠ '\t' := fun he => by subst he; exact absurd h48 (by decide)
  have h3 : c ≠ '\r' := fun he => by subst he; exact absurd h48 (by decide)
  have h4 : c ≠ '\n' := fun he => by subst he; exact absurd h48 (by decide)
  simp [Char.isWhitespace, h1, h2, h3, h4]

theorem charMatchCI_slash (c : Char) (h : isAlnumAscii c = true) :
    charMatchCI '/' c = false := by
  have h48 := alnum_toNat_ge c h
  rw [Bool.eq_false_iff]
  intro hc
  simp only [charMatchCI, Bool.or_eq_true, Bool.and_eq_true, beq_iff_eq,
    decide_eq_true_eq] at hc
  rcases hc with hc | ⟨⟨h1, h2⟩, h3⟩
  · subst hc; exact absurd h48 (by decide)
  · rw [show ('/').toNat = 47 from rfl] at h3
    omega

theorem dpMatchAt_of_all_alnum (s : List Char) (h : s.all isAlnumAscii = true) :
    dpMatchAt s = none := by
  cases s with
  | nil => rfl
  | cons c cs =>
    have hc : isAlnumAscii c = true := by
      simp only [List.all_cons, Bool.and_eq_true] at h
      exact h.1
    have hpre : prefixCI ['/', 'd', 'p', '/'] (c :: cs) = false := by
      simp [prefixCI, charMatchCI_slash c hc]
    simp [dpMatchAt, hpre]

theorem gpMatchAt_of_all_alnum (s : List Char) (h : s.all isAlnumAscii = true) :
    gpMatchAt s = none := by
  cases s with
  | nil => rfl
  | cons c cs =>
    have hc : isAlnumAscii c = true := by
      simp only [List.all_cons, Bool.and_eq_true] at h
      exact h.1
    have hpre : prefixCI ['/', 'g', 'p', '/', 'p', 'r', 'o', 'd', 'u', 'c', 't', '/']
        (c :: cs) = false := by
      simp [prefixCI, charMatchCI_slash c hc]
    simp [gpMatchAt, hpre]

theorem all_alnum_drop (s : List Char) (h : s.all isAlnumAscii = true) (i : Nat) :
    (s.drop i).all isAlnumAscii = true := by
  rw [List.all_eq_true] at h ⊢
  exact fun x hx => h x (List.drop_subset i s hx)

theorem dropWhile_append_of_all (p : Char → Bool) (w t : List Char)
    (hw : w.all p = true) : (w ++ t).dropWhile p = t.dropWhile p := by
  induction w with
  | nil => rfl
  | cons c cs ih =>
    simp only [List.all_cons, Bool.and_eq_true] at hw
    simp [List.dropWhile_cons, hw.1, ih hw.2]

theorem pyStrip_wrap (w1 w2 s : List Char) (hw1 : w1.all Char.isWhitespace = true)
    (hw2 : w2.all Char.isWhitespace = true)
    (hhead : ∀ c ∈ s.take 1, c.isWhitespace = false)
    (hlast : ∀ c ∈ s.reverse.take 1, c.isWhitespace = false) :
    pyStrip (w1 ++ s ++ w2) = s := by
  cases s with
  | nil =>
    unfold pyStrip
    have hall : (w1 ++ w2).all Char.isWhitespace = true := by
      simp only [List.all_append, Bool.and_eq_true]
      exact ⟨hw1, hw2⟩
    have hnil : (w1 ++ w2).dropWhile Char.isWhitespace = [] := by
      rw [List.dropWhile_eq_nil_iff]
      exact fun x hx => List.all_eq_true.mp hall x hx
    simp [hnil]
  | cons a as =>
    have ha : a.isWhitespace = false := hhead a (by simp)
    unfold pyStrip
    rw [List.append_assoc, dropWhile_append_of_all _ _ _ hw1]
    have hL : ((a :: as) ++ w2).dropWhile Char.isWhitespace = (a :: as) ++ w2 := by
      simp [List.dropWhile_cons, ha]
    rw [hL, List.reverse_append, dropWhile_append_of_all _ _ _ (by simpa using hw2)]
    obtain ⟨d, ds, hds⟩ : ∃ d ds, (a :: as).reverse = d :: ds := by
      cases hr : (a :: as).reverse with
      | nil => exact absurd (congrArg List.length hr) (by simp)
      | cons d ds => exact ⟨d, ds, rfl⟩
    have hd : d.isWhitespace = false := by
      apply hlast
      rw [hds]
      simp
    have hcond : ¬(d.isWhitespace = true) := by simp [hd]
    rw [hds, List.dropWhile_cons, if_neg hcond, ← hds, List.reverse_reverse]

theorem mapExcept_ok_of {γ : Type} (f : List Char → Except γ (List Char)) :
    ∀ l : List (List Char), (∀ x ∈ l, ∃ b, f x = .ok b) →
      ∃ bs : List (List Char), mapExcept f l = .ok bs ∧ bs.length = l.length ∧
        ∀ j, j < l.length → f (l.getD j []) = .ok (bs.getD j []) := by
  intro l
  induction l with
  | nil => intro _; exact ⟨[], rfl, rfl, fun j hj => absurd hj (by simp)⟩
  | cons x xs ih =>
    intro h
    obtain ⟨b, hb⟩ := h x (by simp)
    obtain ⟨bs, hmap, hlen, hidx⟩ := ih fun y hy => h y (by simp [hy])
    refine ⟨b :: bs, ?_, by simp [hlen], ?_⟩
    · simp [mapExcept, hb, hmap]
    · intro j hj
      cases j with
      | zero => simpa using hb
      | succ m =>
        simp only [List.getD_cons_succ]
        exact hidx m (by simpa using hj)

theorem mapExcept_error_of {γ : Type} (f : List Char → Except γ (List Char)) :
    ∀ (l : List (List Char)) (k : Nat) (g : γ), k < l.length →
      (∀ j, j < k → ∃ b, f (l.getD j []) = .ok b) →
      f (l.getD k []) = .error g →
      mapExcept f l = .error g := by
  intro l
  induction l with
  | nil => intro k g hk _ _; simp at hk
  | cons x xs ih =>
    intro k g hk hprev herr
    cases k with
    | zero =>
      simp only [List.getD_cons_zero] at herr
      simp [mapExcept, herr]
    | succ m =>
      obtain ⟨b, hb⟩ := hprev 0 (Nat.succ_pos m)
      simp only [List.getD_cons_zero] at hb
      have hrec := ih m g (by simpa using hk)
        (fun j hj => by simpa using hprev (j + 1) (by omega))
        (by simpa using herr)
      simp [mapExcept, hb, hrec]

theorem digitChar_isDigit : ∀ d : Nat, (digitChar d).isDigit = true
  | 0 => rfl | 1 => rfl | 2 => rfl | 3 => rfl | 4 => rfl
  | 5 => rfl | 6 => rfl | 7 => rfl | 8 => rfl | 9 => rfl
  | _ + 10 => rfl

theorem natToDigits_all_digits (n : Nat) :
    (natToDigits n).all Char.isDigit = true := by
  induction n using Nat.strong_induction_on with
  | _ n ih =>
    rw [natToDigits]
    split
    · simp [digitChar_isDigit]
    · rename_i h
      have h1 : n / 10 < n := Nat.div_lt_self (by omega) (by omega)
      simp [List.all_append, ih _ h1, digitChar_isDigit]

theorem natToDigits_length_le : ∀ k n : Nat, n < 10 ^ k → 1 ≤ k →
    (natToDigits n).length ≤ k := by
  intro k
  induction k with
  | zero => intro n _ h1; omega
  | succ m ih =>
    intro n hn _
    rw [natToDigits]
    split
    · simp
    · rename_i h
      have hm1 : 1 ≤ m := by
        rcases Nat.eq_zero_or_pos m with hm | hm
        · subst hm
          simp at hn
          omega
        · exact hm
      have hdiv : n / 10 < 10 ^ m := by
        have hx : n < 10 ^ m * 10 := by
          calc n < 10 ^ (m + 1) := hn
          _ = 10 ^ m * 10 := pow_succ 10 m
        exact (Nat.div_lt_iff_lt_mul (by omega)).mpr hx
      have := ih (n / 10) hdiv hm1
      simp only [List.length_append, List.length_cons, List.length_nil]
      omega

theorem padZeros_length (k : Nat) (s : List Char) (h : s.length ≤ k) :
    (padZeros k s).length = k := by
  simp only [padZeros, List.length_append, List.length_replicate]
  omega

theorem padZeros_all_digits (k : Nat) (s : List Char)
    (h : s.all Char.isDigit = true) : (padZeros k s).all Char.isDigit = true := by
  simp only [padZeros, List.all_append, Bool.and_eq_true]
  refine ⟨?_, h⟩
  rw [List.all_eq_true]
  intro x hx
  rw [List.eq_of_mem_replicate hx]
  decide

theorem isPlainAsin_ne_ten (s : List Char) (h : s.length ≠ 10) :
    isPlainAsin s = false := by
  have h1 : (s.length == 10) = false := beq_eq_false_iff_ne.mpr h
  simp [isPlainAsin, h1]

theorem takeAlnum10_append_one (t : List Char) (c : Char) (hlen : t.length = 10)
    (halnum : t.all isAlnumAscii = true) : takeAlnum10 (t ++ [c]) = some t := by
  have h1 : t.take 10 = t := List.take_of_length_le (by omega)
  have htake : (t ++ [c]).take 10 = t := by
    rw [List.take_append_eq_append_take, h1, hlen]
    simp
  unfold takeAlnum10
  rw [htake]
  simp [hlen, halnum]

theorem pyStrip_eq_self (s : List Char)
    (hhead : ∀ c ∈ s.take 1, c.isWhitespace = false)
    (hlast : ∀ c ∈ s.reverse.take 1, c.isWhitespace = false) :
    pyStrip s = s := by
  have h := pyStrip_wrap [] [] s rfl rfl hhead hlast
  simpa using h

/-- C3: for every string consisting of exactly 10 alphanumeric characters,
possibly surrounded by whitespace, `extract_asin_from_input` returns that
string uppercased. -/
theorem C3_plain_asin_upper (w1 w2 S : List Char)
    (hw1 : w1.all Char.isWhitespace = true) (hw2 : w2.all Char.isWhitespace = true)
    (hlen : S.length = 10) (halnum : S.all isAlnumAscii = true) :
    extract_asin_from_input (w1 ++ S ++ w2) = some (S.map Char.toUpper) := by
  have hmem : ∀ c ∈ S, isAlnumAscii c = true := List.all_eq_true.mp halnum
  have hstrip : pyStrip (w1 ++ S ++ w2) = S := by
    apply pyStrip_wrap _ _ _ hw1 hw2
    · intro c hc
      exact alnum_not_ws c (hmem c (List.take_subset 1 S hc))
    · intro c hc
      refine alnum_not_ws c (hmem c ?_)
      have := List.take_subset 1 S.reverse hc
      exact List.mem_reverse.mp this
  have hplain : isPlainAsin S = true := by
    simp [isPlainAsin, hlen, halnum]
  simp only [extract_asin_from_input]
  rw [hstrip, hplain]
  simp

/-- C3 witness: `extract_asin_from_input " B0DJ33ZFJH "` is `B0DJ33ZFJH`. -/
theorem C3_plain_asin_upper_witness :
    extract_asin_from_input (" ".toList ++ "B0DJ33ZFJH".toList ++ " ".toList) =
      some ("B0DJ33ZFJH".toList.map Char.toUpper) :=
  C3_plain_asin_upper " ".toList " ".toList "B0DJ33ZFJH".toList
    (by decide) (by decide) (by decide) (by decide)

/-- C1 counterexample: in `/gp/product/AAAAAAAAAA/dp/BBBBBBBBBB` the first
matching identifier segment in left-to-right order is the `/gp/product/` one
at position 0 with token `AAAAAAAAAA`, yet `extract_asin_from_input` returns
`BBBBBBBBBB` because the `/dp/` pattern is searched first. -/
theorem C1_counterexample :
    dpGpMatchAt (pyStrip "/gp/product/AAAAAAAAAA/dp/BBBBBBBBBB".toList) =
        some "AAAAAAAAAA".toList ∧
    extract_asin_from_input "/gp/product/AAAAAAAAAA/dp/BBBBBBBBBB".toList =
        some "BBBBBBBBBB".toList ∧
    extract_asin_from_input "/gp/product/AAAAAAAAAA/dp/BBBBBBBBBB".toList ≠
        some "AAAAAAAAAA".toList :=
  ⟨by decide, by decide, by decide⟩

/-- C1 amended: when the trimmed input is not itself a plain 10-character
token, `extract_asin_from_input` returns the token of the leftmost `/dp/`
segment whenever any `/dp/` segment matches, regardless of any earlier
`/gp/product/` segment; only when no `/dp/` segment matches anywhere does it
return the token of the leftmost `/gp/product/` segment. -/
theorem C1_amended_dp_priority (s : List Char)
    (hplain : isPlainAsin (pyStrip s) = false) :
    (∀ i t, i ≤ (pyStrip s).length → dpMatchAt ((pyStrip s).drop i) = some t →
      (∀ j, j < i → dpMatchAt ((pyStrip s).drop j) = none) →
      extract_asin_from_input s = some (t.map Char.toUpper)) ∧
    ((∀ j, j ≤ (pyStrip s).length → dpMatchAt ((pyStrip s).drop j) = none) →
      ∀ i t, i ≤ (pyStrip s).length → gpMatchAt ((pyStrip s).drop i) = some t →
      (∀ j, j < i → gpMatchAt ((pyStrip s).drop j) = none) →
      extract_asin_from_input s = some (t.map Char.toUpper)) := by
  constructor
  · intro i t _ hmatch hbefore
    have hsearch : reSearch dpMatchAt (pyStrip s) = some t :=
      reSearch_eq_some_of dpMatchAt (pyStrip s) i t hmatch hbefore
    simp only [extract_asin_from_input]
    rw [hplain]
    simp [hsearch]
  · intro hnodp i t _ hmatch hbefore
    have hdpall : ∀ j, dpMatchAt ((pyStrip s).drop j) = none := by
      intro j
      rcases Nat.le_total j (pyStrip s).length with hj | hj
      · exact hnodp j hj
      · rw [List.drop_eq_nil_of_le hj]
        exact dpMatchAt_nil
    have hdpsearch : reSearch dpMatchAt (pyStrip s) = none :=
      (reSearch_none_iff _ _).mpr hdpall
    have hsearch : reSearch gpMatchAt (pyStrip s) = some t :=
      reSearch_eq_some_of gpMatchAt (pyStrip s) i t hmatch hbefore
    simp only [extract_asin_from_input]
    rw [hplain]
    simp [hdpsearch, hsearch]

/-- C1 amended witness: on `/gp/product/AAAAAAAAAA/dp/BBBBBBBBBB` the leftmost
`/dp/` match (at position 22) wins. -/
theorem C1_amended_dp_priority_witness :
    extract_asin_from_input "/gp/product/AAAAAAAAAA/dp/BBBBBBBBBB".toList =
      some ("BBBBBBBBBB".toList.map Char.toUpper) :=
  (C1_amended_dp_priority "/gp/product/AAAAAAAAAA/dp/BBBBBBBBBB".toList
      (by decide)).1 22 "BBBBBBBBBB".toList (by decide) (by decide)
    (by decide)

theorem dpMatchAt_none_first (a : Char) (cs : List Char)
    (h : charMatchCI '/' a = false) : dpMatchAt (a :: cs) = none := by
  have hpre : prefixCI ['/', 'd', 'p', '/'] (a :: cs) = false := by
    simp [prefixCI, h]
  simp [dpMatchAt, hpre]

theorem dpMatchAt_none_second (a b : Char) (cs : List Char)
    (h : charMatchCI 'd' b = false) : dpMatchAt (a :: b :: cs) = none := by
  have hpre : prefixCI ['/', 'd', 'p', '/'] (a :: b :: cs) = false := by
    simp [prefixCI, h]
  simp [dpMatchAt, hpre]

theorem dpMatchAt_none_fourth (a b c d : Char) (cs : List Char)
    (h : charMatchCI '/' d = false) : dpMatchAt (a :: b :: c :: d :: cs) = none := by
  have hpre : prefixCI ['/', 'd', 'p', '/'] (a :: b :: c :: d :: cs) = false := by
    simp [prefixCI, h]
  simp [dpMatchAt, hpre]

/-- C2 counterexample: `/dp/` followed by the 11-character alphanumeric run
`ABCDEFGHIJK` is not rejected; both resolvers return its first 10 characters. -/
theorem C2_counterexample :
    extract_asin_from_input "https://www.amazon.com/dp/ABCDEFGHIJK".toList =
        some "ABCDEFGHIJ".toList ∧
    extract_asin "https://www.amazon.com/dp/ABCDEFGHIJK".toList =
        some "ABCDEFGHIJ".toList :=
  ⟨by decide, by decide⟩

/-- C2 amended: an 11-character alphanumeric run as the whole trimmed input is
indeed rejected (NotFound), but following `/dp/` or `/gp/product/` in a URL an
11-character alphanumeric run is accepted truncated: the first 10 of its
characters are returned uppercased. -/
theorem C2_amended :
    (∀ s : List Char, (pyStrip s).length = 11 →
      (pyStrip s).all isAlnumAscii = true → extract_asin_from_input s = none) ∧
    (∀ (t : List Char) (c : Char), t.length = 10 → t.all isAlnumAscii = true →
      isAlnumAscii c = true →
      extract_asin_from_input ('/' :: 'd' :: 'p' :: '/' :: (t ++ [c])) =
        some (t.map Char.toUpper)) ∧
    (∀ (t : List Char) (c : Char), t.length = 10 → t.all isAlnumAscii = true →
      isAlnumAscii c = true →
      extract_asin_from_input ('/' :: 'g' :: 'p' :: '/' :: 'p' :: 'r' :: 'o' ::
          'd' :: 'u' :: 'c' :: 't' :: '/' :: (t ++ [c])) =
        some (t.map Char.toUpper)) := by
  refine ⟨?_, ?_, ?_⟩
  · intro s hlen halnum
    have hplain : isPlainAsin (pyStrip s) = false := isPlainAsin_ne_ten _ (by omega)
    have hdp : reSearch dpMatchAt (pyStrip s) = none :=
      (reSearch_none_iff _ _).mpr fun i =>
        dpMatchAt_of_all_alnum _ (all_alnum_drop _ halnum i)
    have hgp : reSearch gpMatchAt (pyStrip s) = none :=
      (reSearch_none_iff _ _).mpr fun i =>
        gpMatchAt_of_all_alnum _ (all_alnum_drop _ halnum i)
    simp only [extract_asin_from_input]
    rw [hplain]
    simp [hdp, hgp]
  · intro t c hlen halnum hc
    have hmem : ∀ x ∈ t, isAlnumAscii x = true := List.all_eq_true.mp halnum
    have hform : ('/' :: 'd' :: 'p' :: '/' :: (t ++ [c])) =
        (['/', 'd', 'p', '/'] ++ t) ++ [c] := by
      simp
    have hstrip : pyStrip ('/' :: 'd' :: 'p' :: '/' :: (t ++ [c])) =
        ('/' :: 'd' :: 'p' :: '/' :: (t ++ [c])) := by
      apply pyStrip_eq_self
      · intro x hx
        simp at hx
        subst hx
        decide
      · intro x hx
        rw [hform, List.reverse_append] at hx
        simp at hx
        cases hx
        exact alnum_not_ws _ hc
    have hlen15 : ('/' :: 'd' :: 'p' :: '/' :: (t ++ [c])).length = 15 := by
      simp [hlen]
    have hplain : isPlainAsin ('/' :: 'd' :: 'p' :: '/' :: (t ++ [c])) = false :=
      isPlainAsin_ne_ten _ (by omega)
    have hpre : prefixCI "/dp/".toList ('/' :: 'd' :: 'p' :: '/' :: (t ++ [c])) =
        true := by
      show prefixCI ('/' :: 'd' :: 'p' :: '/' :: []) _ = true
      simp [prefixCI, charMatchCI]
    have hdp0 : dpMatchAt ('/' :: 'd' :: 'p' :: '/' :: (t ++ [c])) = some t := by
      unfold dpMatchAt
      rw [hpre, if_pos rfl]
      exact takeAlnum10_append_one t c hlen halnum
    have hsearch : reSearch dpMatchAt ('/' :: 'd' :: 'p' :: '/' :: (t ++ [c])) =
        some t :=
      reSearch_eq_some_of dpMatchAt _ 0 t (by simpa using hdp0)
        fun j hj => absurd hj (by omega)
    simp only [extract_asin_from_input]
    rw [hstrip, hplain]
    simp [hsearch]
  · intro t c hlen halnum hc
    rcases t with _ | ⟨t0, _ | ⟨t1, _ | ⟨t2, rest⟩⟩⟩
    · simp at hlen
    · simp at hlen
    · simp at hlen
    simp only [List.all_cons, Bool.and_eq_true] at halnum
    obtain ⟨ht0, ht1, ht2, hrest⟩ := halnum
    have halnum' : (t0 :: t1 :: t2 :: rest).all isAlnumAscii = true := by
      simp [List.all_cons, ht0, ht1, ht2, hrest]
    have hform : ('/' :: 'g' :: 'p' :: '/' :: 'p' :: 'r' :: 'o' :: 'd' :: 'u' ::
        'c' :: 't' :: '/' :: ((t0 :: t1 :: t2 :: rest) ++ [c])) =
        (['/', 'g', 'p', '/', 'p', 'r', 'o', 'd', 'u', 'c', 't', '/'] ++
          (t0 :: t1 :: t2 :: rest)) ++ [c] := by
      simp
    have hstrip : pyStrip ('/' :: 'g' :: 'p' :: '/' :: 'p' :: 'r' :: 'o' :: 'd' ::
        'u' :: 'c' :: 't' :: '/' :: ((t0 :: t1 :: t2 :: rest) ++ [c])) =
        ('/' :: 'g' :: 'p' :: '/' :: 'p' :: 'r' :: 'o' :: 'd' :: 'u' :: 'c' ::
          't' :: '/' :: ((t0 :: t1 :: t2 :: rest) ++ [c])) := by
      apply pyStrip_eq_self
      · intro x hx
        simp at hx
        subst hx
        decide
      · intro x hx
        rw [hform, List.reverse_append] at hx
        simp at hx
        cases hx
        exact alnum_not_ws _ hc
    have h10 : rest.length = 7 := by
      have h3 := hlen
      simp only [List.length_cons] at h3
      omega
    have hlen23 : ('/' :: 'g' :: 'p' :: '/' :: 'p' :: 'r' :: 'o' :: 'd' :: 'u' ::
        'c' :: 't' :: '/' :: ((t0 :: t1 :: t2 :: rest) ++ [c])).length = 23 := by
      simp [List.length_append, List.length_cons, h10]
    have hplain : isPlainAsin ('/' :: 'g' :: 'p' :: '/' :: 'p' :: 'r' :: 'o' ::
        'd' :: 'u' :: 'c' :: 't' :: '/' :: ((t0 :: t1 :: t2 :: rest) ++ [c])) =
        false :=
      isPlainAsin_ne_ten _ (by omega)
    have hnodp : ∀ i, dpMatchAt (('/' :: 'g' :: 'p' :: '/' :: 'p' :: 'r' :: 'o' ::
        'd' :: 'u' :: 'c' :: 't' :: '/' :: ((t0 :: t1 :: t2 :: rest) ++ [c])).drop
          i) = none := by
      intro i
      rcases Nat.lt_or_ge i 12 with hi | hi
      · interval_cases i
        · exact dpMatchAt_none_second _ _ _ (by decide)
        · exact dpMatchAt_none_first _ _ (by decide)
        · exact dpMatchAt_none_first _ _ (by decide)
        · exact dpMatchAt_none_second _ _ _ (by decide)
        · exact dpMatchAt_none_first _ _ (by decide)
        · exact dpMatchAt_none_first _ _ (by decide)
        · exact dpMatchAt_none_first _ _ (by decide)
        · exact dpMatchAt_none_first _ _ (by decide)
        · exact dpMatchAt_none_first _ _ (by decide)
        · exact dpMatchAt_none_first _ _ (by decide)
        · exact dpMatchAt_none_first _ _ (by decide)
        · exact dpMatchAt_none_fourth _ _ _ _ _ (charMatchCI_slash t2 ht2)
      · have hdropall : ('/' :: 'g' :: 'p' :: '/' :: 'p' :: 'r' :: 'o' :: 'd' ::
            'u' :: 'c' :: 't' :: '/' :: ((t0 :: t1 :: t2 :: rest) ++ [c])).drop i =
            ((t0 :: t1 :: t2 :: rest) ++ [c]).drop (i - 12) := by
          conv_lhs => rw [show ('/' :: 'g' :: 'p' :: '/' :: 'p' :: 'r' :: 'o' ::
            'd' :: 'u' :: 'c' :: 't' :: '/' :: ((t0 :: t1 :: t2 :: rest) ++ [c])) =
            ['/', 'g', 'p', '/', 'p', 'r', 'o', 'd', 'u', 'c', 't', '/'] ++
              ((t0 :: t1 :: t2 :: rest) ++ [c]) from rfl]
          rw [List.drop_append_eq_append_drop]
          rw [List.drop_eq_nil_of_le (by simp; omega)]
          simp
        rw [hdropall]
        apply dpMatchAt_of_all_alnum
        apply all_alnum_drop
        simp [List.all_append, List.all_cons, ht0, ht1, ht2, hrest, hc]
    have hdpsearch : reSearch dpMatchAt ('/' :: 'g' :: 'p' :: '/' :: 'p' :: 'r' ::
        'o' :: 'd' :: 'u' :: 'c' :: 't' :: '/' ::
          ((t0 :: t1 :: t2 :: rest) ++ [c])) = none :=
      (reSearch_none_iff _ _).mpr hnodp
    have hpre : prefixCI "/gp/product/".toList ('/' :: 'g' :: 'p' :: '/' :: 'p' ::
        'r' :: 'o' :: 'd' :: 'u' :: 'c' :: 't' :: '/' ::
          ((t0 :: t1 :: t2 :: rest) ++ [c])) = true := by
      show prefixCI ('/' :: 'g' :: 'p' :: '/' :: 'p' :: 'r' :: 'o' :: 'd' :: 'u' ::
        'c' :: 't' :: '/' :: []) _ = true
      simp [prefixCI, charMatchCI]
    have hgp0 : gpMatchAt ('/' :: 'g' :: 'p' :: '/' :: 'p' :: 'r' :: 'o' :: 'd' ::
        'u' :: 'c' :: 't' :: '/' :: ((t0 :: t1 :: t2 :: rest) ++ [c])) =
        some (t0 :: t1 :: t2 :: rest) := by
      unfold gpMatchAt
      rw [hpre, if_pos rfl]
      exact takeAlnum10_append_one _ c (by simpa using hlen) halnum'
    have hgpsearch : reSearch gpMatchAt ('/' :: 'g' :: 'p' :: '/' :: 'p' :: 'r' ::
        'o' :: 'd' :: 'u' :: 'c' :: 't' :: '/' ::
          ((t0 :: t1 :: t2 :: rest) ++ [c])) = some (t0 :: t1 :: t2 :: rest) :=
      reSearch_eq_some_of gpMatchAt _ 0 _ (by simpa using hgp0)
        fun j hj => absurd hj (by omega)
    simp only [extract_asin_from_input]
    rw [hstrip, hplain]
    simp only [List.cons_append] at hdpsearch hgpsearch
    simp [hdpsearch, hgpsearch]

/-- C2 amended witness: `ABCDEFGHIJK` alone is rejected while
`/dp/ABCDEFGHIJK` and `/gp/product/ABCDEFGHIJK` yield `ABCDEFGHIJ`. -/
theorem C2_amended_witness :
    extract_asin_from_input "ABCDEFGHIJK".toList = none ∧
    extract_asin_from_input "/dp/ABCDEFGHIJK".toList =
      some ("ABCDEFGHIJ".toList.map Char.toUpper) ∧
    extract_asin_from_input "/gp/product/ABCDEFGHIJK".toList =
      some ("ABCDEFGHIJ".toList.map Char.toUpper) :=
  ⟨C2_amended.1 "ABCDEFGHIJK".toList (by decide) (by decide),
   C2_amended.2.1 "ABCDEFGHIJ".toList 'K' (by decide) (by decide) (by decide),
   C2_amended.2.2 "ABCDEFGHIJ".toList 'K' (by decide) (by decide) (by decide)⟩

theorem dpGpMatchAt_some_length (u t : List Char) (h : dpGpMatchAt u = some t) :
    14 ≤ u.length := by
  unfold dpGpMatchAt at h
  cases hdp : dpMatchAt u with
  | some v => exact dpMatchAt_some_length u v hdp
  | none =>
    rw [hdp] at h
    have := gpMatchAt_some_length u t h
    omega

theorem matchAt_drop_extend (m : List Char → Option (List Char))
    (hnil : m [] = none) (s : List Char)
    (h : ∀ i, i < s.length → m (s.drop i) = none) :
    ∀ i, m (s.drop i) = none := by
  intro i
  rcases Nat.lt_or_ge i s.length with hi | hi
  · exact h i hi
  · rw [List.drop_eq_nil_of_le hi]
    exact hnil

/-- C4: if the trimmed input contains a `/dp/<10 alnum>` or
`/gp/product/<10 alnum>` segment and every matching segment carries the same
token, `extract_asin_from_input` returns that token uppercased; and if the
trimmed input is not a plain 10-character token and no such segment matches
anywhere, it returns none (NotFound). -/
theorem C4_url_and_notfound (s : List Char) :
    (∀ t : List Char,
      (∃ i, i < (pyStrip s).length ∧ dpGpMatchAt ((pyStrip s).drop i) = some t) →
      (∀ i, i < (pyStrip s).length → dpGpMatchAt ((pyStrip s).drop i) = none ∨
        dpGpMatchAt ((pyStrip s).drop i) = some t) →
      extract_asin_from_input s = some (t.map Char.toUpper)) ∧
    (isPlainAsin (pyStrip s) = false →
      (∀ i, i < (pyStrip s).length → dpGpMatchAt ((pyStrip s).drop i) = none) →
      extract_asin_from_input s = none) := by
  constructor
  · rintro t ⟨i, hi, hgpdp⟩ huniq
    have hplain : isPlainAsin (pyStrip s) = false := by
      have hlen14 : 14 ≤ ((pyStrip s).drop i).length :=
        dpGpMatchAt_some_length _ _ hgpdp
      have := List.length_drop i (pyStrip s)
      exact isPlainAsin_ne_ten _ (by omega)
    cases hdps : reSearch dpMatchAt (pyStrip s) with
    | some u =>
      obtain ⟨j, hj⟩ := reSearch_some_exists _ _ _ hdps
      have hjlen : j < (pyStrip s).length := by
        by_contra hge
        rw [List.drop_eq_nil_of_le (by omega)] at hj
        exact Option.noConfusion (dpMatchAt_nil ▸ hj)
      have hdpgpj : dpGpMatchAt ((pyStrip s).drop j) = some u :=
        dpGpMatchAt_of_dp _ _ hj
      have hut : u = t := by
        rcases huniq j hjlen with hnone | hsome
        · rw [hnone] at hdpgpj
          exact Option.noConfusion hdpgpj
        · rw [hsome] at hdpgpj
          exact (Option.some.inj hdpgpj).symm
      subst hut
      simp only [extract_asin_from_input]
      rw [hplain]
      simp [hdps]
    | none =>
      have hdpall := (reSearch_none_iff _ _).mp hdps
      have hgpi : gpMatchAt ((pyStrip s).drop i) = some t := by
        unfold dpGpMatchAt at hgpdp
        rw [hdpall i] at hgpdp
        exact hgpdp
      cases hgps : reSearch gpMatchAt (pyStrip s) with
      | none =>
        have hn := (reSearch_none_iff _ _).mp hgps i
        rw [hn] at hgpi
        exact Option.noConfusion hgpi
      | some u =>
        obtain ⟨j, hj⟩ := reSearch_some_exists _ _ _ hgps
        have hjlen : j < (pyStrip s).length := by
          by_contra hge
          rw [List.drop_eq_nil_of_le (by omega)] at hj
          exact Option.noConfusion (gpMatchAt_nil ▸ hj)
        have hdpgpj : dpGpMatchAt ((pyStrip s).drop j) = some u :=
          dpGpMatchAt_of_gp _ _ (hdpall j) hj
        have hut : u = t := by
          rcases huniq j hjlen with hnone | hsome
          · rw [hnone] at hdpgpj
            exact Option.noConfusion hdpgpj
          · rw [hsome] at hdpgpj
            exact (Option.some.inj hdpgpj).symm
        subst hut
        simp only [extract_asin_from_input]
        rw [hplain]
        simp [hdps, hgps]
  · intro hplain hnone
    have hall : ∀ i, dpGpMatchAt ((pyStrip s).drop i) = none :=
      matchAt_drop_extend dpGpMatchAt rfl (pyStrip s) hnone
    have hdp : reSearch dpMatchAt (pyStrip s) = none :=
      (reSearch_none_iff _ _).mpr fun i =>
        ((dpGpMatchAt_eq_none_iff _).mp (hall i)).1
    have hgp : reSearch gpMatchAt (pyStrip s) = none :=
      (reSearch_none_iff _ _).mpr fun i =>
        ((dpGpMatchAt_eq_none_iff _).mp (hall i)).2
    simp only [extract_asin_from_input]
    rw [hplain]
    simp [hdp, hgp]

/-- C4 witness: a lowercase `/dp/` URL resolves to the uppercased token, and
`not-an-asin` resolves to none. -/
theorem C4_url_and_notfound_witness :
    extract_asin_from_input "https://www.amazon.com/dp/b0dj33zfjh".toList =
      some ("b0dj33zfjh".toList.map Char.toUpper) ∧
    extract_asin_from_input "not-an-asin".toList = none :=
  ⟨(C4_url_and_notfound "https://www.amazon.com/dp/b0dj33zfjh".toList).1
      "b0dj33zfjh".toList ⟨22, by decide, by decide⟩ (by decide),
   (C4_url_and_notfound "not-an-asin".toList).2 (by decide) (by decide)⟩

/-- C5 counterexample: the two resolver implementations disagree on
`x/gp/product/CCCCCCCCCC/dp/DDDDDDDDDD`: the keepa one prefers the `/dp/`
token, the scraper one returns the leftmost match. -/
theorem C5_counterexample :
    extract_asin_from_input "x/gp/product/CCCCCCCCCC/dp/DDDDDDDDDD".toList =
        some "DDDDDDDDDD".toList ∧
    extract_asin "x/gp/product/CCCCCCCCCC/dp/DDDDDDDDDD".toList =
        some "CCCCCCCCCC".toList ∧
    extract_asin_from_input "x/gp/product/CCCCCCCCCC/dp/DDDDDDDDDD".toList ≠
      extract_asin "x/gp/product/CCCCCCCCCC/dp/DDDDDDDDDD".toList :=
  ⟨by decide, by decide, by decide⟩

/-- C5 amended: the two resolvers succeed on exactly the same inputs (one
returns a token iff the other does), and they return identical results on
every input in which at most one of the two segment patterns matches; they can
differ only when a `/gp/product/` match precedes a `/dp/` match. -/
theorem C5_amended_domain_and_agreement (s : List Char) :
    ((extract_asin_from_input s).isSome = (extract_asin s).isSome) ∧
    (((∀ i, i < (pyStrip s).length → dpMatchAt ((pyStrip s).drop i) = none) ∨
      (∀ i, i < (pyStrip s).length → gpMatchAt ((pyStrip s).drop i) = none)) →
      extract_asin_from_input s = extract_asin s) := by
  constructor
  · by_cases hplain : isPlainAsin (pyStrip s) = true
    · simp [extract_asin_from_input, extract_asin, hplain]
    · have hplain' : isPlainAsin (pyStrip s) = false := by
        simpa using hplain
      simp only [extract_asin_from_input, extract_asin]
      rw [hplain']
      cases hdps : reSearch dpMatchAt (pyStrip s) with
      | some u =>
        obtain ⟨j, hj⟩ := reSearch_some_exists _ _ _ hdps
        have hdpgpj : dpGpMatchAt ((pyStrip s).drop j) = some u :=
          dpGpMatchAt_of_dp _ _ hj
        cases hdpgp : reSearch dpGpMatchAt (pyStrip s) with
        | none =>
          have := (reSearch_none_iff _ _).mp hdpgp j
          rw [this] at hdpgpj
          exact Option.noConfusion hdpgpj
        | some v => simp
      | none =>
        have hdpall := (reSearch_none_iff _ _).mp hdps
        cases hgps : reSearch gpMatchAt (pyStrip s) with
        | some u =>
          obtain ⟨j, hj⟩ := reSearch_some_exists _ _ _ hgps
          have hdpgpj : dpGpMatchAt ((pyStrip s).drop j) = some u :=
            dpGpMatchAt_of_gp _ _ (hdpall j) hj
          cases hdpgp : reSearch dpGpMatchAt (pyStrip s) with
          | none =>
            have := (reSearch_none_iff _ _).mp hdpgp j
            rw [this] at hdpgpj
            exact Option.noConfusion hdpgpj
          | some v => simp
        | none =>
          have hgpall := (reSearch_none_iff _ _).mp hgps
          have hdpgp : reSearch dpGpMatchAt (pyStrip s) = none :=
            (reSearch_none_iff _ _).mpr fun i =>
              (dpGpMatchAt_eq_none_iff _).mpr ⟨hdpall i, hgpall i⟩
          simp [hdpgp]
  · intro hside
    by_cases hplain : isPlainAsin (pyStrip s) = true
    · simp [extract_asin_from_input, extract_asin, hplain]
    · have hplain' : isPlainAsin (pyStrip s) = false := by
        simpa using hplain
      rcases hside with hnodp | hnogp
      · have hdpall : ∀ i, dpMatchAt ((pyStrip s).drop i) = none :=
          matchAt_drop_extend dpMatchAt rfl (pyStrip s) hnodp
        have hcong : reSearch dpGpMatchAt (pyStrip s) =
            reSearch gpMatchAt (pyStrip s) :=
          reSearch_congrAt _ _ (pyStrip s) fun i => by
            unfold dpGpMatchAt
            rw [hdpall i]
        have hdps : reSearch dpMatchAt (pyStrip s) = none :=
          (reSearch_none_iff _ _).mpr hdpall
        simp only [extract_asin_from_input, extract_asin]
        rw [hplain', hdps, hcong]
      · have hgpall : ∀ i, gpMatchAt ((pyStrip s).drop i) = none :=
          matchAt_drop_extend gpMatchAt rfl (pyStrip s) hnogp
        have hcong : reSearch dpGpMatchAt (pyStrip s) =
            reSearch dpMatchAt (pyStrip s) :=
          reSearch_congrAt _ _ (pyStrip s) fun i => by
            unfold dpGpMatchAt
            cases hd : dpMatchAt ((pyStrip s).drop i) with
            | some u => rfl
            | none => exact hgpall i
        have hgps : reSearch gpMatchAt (pyStrip s) = none :=
          (reSearch_none_iff _ _).mpr hgpall
        simp only [extract_asin_from_input, extract_asin]
        rw [hplain', hcong, hgps]

/-- C5 amended witness: a `/dp/`-only URL gives identical results. -/
theorem C5_amended_domain_and_agreement_witness :
    extract_asin_from_input "https://www.amazon.com/dp/B0DJ33ZFJH".toList =
      extract_asin "https://www.amazon.com/dp/B0DJ33ZFJH".toList :=
  (C5_amended_domain_and_agreement
      "https://www.amazon.com/dp/B0DJ33ZFJH".toList).2 (Or.inr (by decide))

theorem processLine_fetch_error {γ : Type}
    (fetch : List Char → Except (List Char) KeepaListing)
    (auditO : List Char → List Char → List Char → List Char → List Char →
      Except γ (List Char))
    (rewriteO : List Char → List Char → List Char → List Char → List Char →
      List Char → List Char → List Char → Except γ (List Char))
    (kw cat aud identifier e : List Char)
    (herr : fetch identifier = .error e) :
    processLine fetch auditO rewriteO kw cat aud identifier =
      .ok (errorBlock identifier e) := by
  unfold processLine
  rw [herr]

theorem processLine_all_ok {γ : Type}
    (fetch : List Char → Except (List Char) KeepaListing)
    (auditO : List Char → List Char → List Char → List Char → List Char →
      Except γ (List Char))
    (rewriteO : List Char → List Char → List Char → List Char → List Char →
      List Char → List Char → List Char → Except γ (List Char))
    (kw cat aud identifier : List Char) (L : KeepaListing) (a o : List Char)
    (hf : fetch identifier = .ok L)
    (ha : auditO L.title (bulletsText L.bullets) L.description [] kw = .ok a)
    (ho : rewriteO L.title (bulletsText L.bullets) L.description [] kw cat aud a
      = .ok o) :
    processLine fetch auditO rewriteO kw cat aud identifier =
      .ok (pyStrip (blockRaw identifier L.asin L.title (bulletsText L.bullets)
        L.description a o)) := by
  unfold processLine
  rw [hf]
  dsimp only
  rw [ha]
  dsimp only
  rw [ho]

theorem processLine_audit_error {γ : Type}
    (fetch : List Char → Except (List Char) KeepaListing)
    (auditO : List Char → List Char → List Char → List Char → List Char →
      Except γ (List Char))
    (rewriteO : List Char → List Char → List Char → List Char → List Char →
      List Char → List Char → List Char → Except γ (List Char))
    (kw cat aud identifier : List Char) (L : KeepaListing) (g : γ)
    (hf : fetch identifier = .ok L)
    (ha : auditO L.title (bulletsText L.bullets) L.description [] kw = .error g) :
    processLine fetch auditO rewriteO kw cat aud identifier = .error g := by
  unfold processLine
  rw [hf]
  dsimp only
  rw [ha]

theorem processLine_rewrite_error {γ : Type}
    (fetch : List Char → Except (List Char) KeepaListing)
    (auditO : List Char → List Char → List Char → List Char → List Char →
      Except γ (List Char))
    (rewriteO : List Char → List Char → List Char → List Char → List Char →
      List Char → List Char → List Char → Except γ (List Char))
    (kw cat aud identifier : List Char) (L : KeepaListing) (a : List Char) (g : γ)
    (hf : fetch identifier = .ok L)
    (ha : auditO L.title (bulletsText L.bullets) L.description [] kw = .ok a)
    (ho : rewriteO L.title (bulletsText L.bullets) L.description [] kw cat aud a
      = .error g) :
    processLine fetch auditO rewriteO kw cat aud identifier = .error g := by
  unfold processLine
  rw [hf]
  dsimp only
  rw [ha]
  dsimp only
  rw [ho]

/-- C6: in the batch flow, if the fetch of line k raises while every other
line's fetch and generation calls succeed, the output is exactly one rendered
block per non-empty input line, joined in the original order, where block k is
the inline error block (which carries the error marker and none of the
audit/rewrite content) and every other line still gets its full block: no
line's fetch failure aborts the processing of the remaining lines. -/
theorem C6_batch_isolation {γ : Type}
    (fetch : List Char → Except (List Char) KeepaListing)
    (auditO : List Char → List Char → List Char → List Char → List Char →
      Except γ (List Char))
    (rewriteO : List Char → List Char → List Char → List Char → List Char →
      List Char → List Char → List Char → Except γ (List Char))
    (text kw cat aud : List Char) (k : Nat) (e : List Char)
    (hk : k < (cleanLines text).length)
    (herr : fetch ((cleanLines text).getD k []) = .error e)
    (hok : ∀ j, j < (cleanLines text).length → j ≠ k →
      ∃ L a o, fetch ((cleanLines text).getD j []) = .ok L ∧
        auditO L.title (bulletsText L.bullets) L.description [] kw = .ok a ∧
        rewriteO L.title (bulletsText L.bullets) L.description [] kw cat aud a =
          .ok o) :
    ∃ blocks : List (List Char),
      optimize_from_identifiers_ui fetch auditO rewriteO text kw cat aud =
        .ok (List.intercalate "\n\n".toList blocks) ∧
      blocks.length = (cleanLines text).length ∧
      blocks.getD k [] = errorBlock ((cleanLines text).getD k []) e ∧
      ∀ j, j < (cleanLines text).length → j ≠ k →
        ∃ L a o, fetch ((cleanLines text).getD j []) = .ok L ∧
          auditO L.title (bulletsText L.bullets) L.description [] kw = .ok a ∧
          rewriteO L.title (bulletsText L.bullets) L.description [] kw cat aud a
            = .ok o ∧
          blocks.getD j [] = pyStrip (blockRaw ((cleanLines text).getD j [])
            L.asin L.title (bulletsText L.bullets) L.description a o) := by
  have hfok : ∀ x ∈ cleanLines text, ∃ b,
      processLine fetch auditO rewriteO kw cat aud x = .ok b := by
    intro x hx
    obtain ⟨j, hj, hjx⟩ := List.mem_iff_getElem.mp hx
    have hxd : (cleanLines text).getD j [] = x := by
      rw [List.getD_eq_getElem (cleanLines text) [] hj]
      exact hjx
    by_cases hjk : j = k
    · subst hjk
      rw [← hxd]
      exact ⟨errorBlock ((cleanLines text).getD j []) e,
        processLine_fetch_error _ _ _ _ _ _ _ _ herr⟩
    · obtain ⟨L, a, o, hf, ha, ho⟩ := hok j hj hjk
      rw [← hxd]
      exact ⟨_, processLine_all_ok _ _ _ _ _ _ _ _ _ _ hf ha ho⟩
  obtain ⟨bs, hmap, hlen, hidx⟩ :=
    mapExcept_ok_of (processLine fetch auditO rewriteO kw cat aud)
      (cleanLines text) hfok
  have hempty : (cleanLines text).isEmpty = false := by
    cases hcl : cleanLines text with
    | nil => rw [hcl] at hk; simp at hk
    | cons y ys => rfl
  refine ⟨bs, ?_, hlen, ?_, ?_⟩
  · simp only [optimize_from_identifiers_ui]
    rw [hempty]
    simp [hmap]
  · have h1 := hidx k hk
    rw [processLine_fetch_error _ _ _ _ _ _ _ _ herr] at h1
    exact (Except.ok.inj h1).symm
  · intro j hj hne
    obtain ⟨L, a, o, hf, ha, ho⟩ := hok j hj hne
    refine ⟨L, a, o, hf, ha, ho, ?_⟩
    have h1 := hidx j hj
    rw [processLine_all_ok _ _ _ _ _ _ _ _ _ _ hf ha ho] at h1
    exact (Except.ok.inj h1).symm

/-- Concrete fetch oracle for witnesses: fails on the line BAD. -/
def wFetch : List Char → Except (List Char) KeepaListing := fun s =>
  if s = "BAD".toList then .error "boom".toList
  else .ok ⟨"B0DJ33ZFJH".toList, "T".toList, [], "D".toList⟩

/-- Concrete audit oracle for witnesses: always succeeds. -/
def wAudit : List Char → List Char → List Char → List Char → List Char →
    Except (List Char) (List Char) := fun _ _ _ _ _ => .ok "AUD".toList

/-- Concrete audit oracle for witnesses: always fails. -/
def wAuditErr : List Char → List Char → List Char → List Char → List Char →
    Except (List Char) (List Char) := fun _ _ _ _ _ => .error "genfail".toList

/-- Concrete rewrite oracle for witnesses: always succeeds. -/
def wRewrite : List Char → List Char → List Char → List Char → List Char →
    List Char → List Char → List Char → Except (List Char) (List Char) :=
  fun _ _ _ _ _ _ _ _ => .ok "OPT".toList

/-- C6 witness: a two-line batch where the second line (BAD) fails to fetch. -/
theorem C6_batch_isolation_witness :
    ∃ blocks : List (List Char),
      optimize_from_identifiers_ui wFetch wAudit wRewrite "GOOD\nBAD".toList
          "kw".toList "cat".toList "aud".toList =
        .ok (List.intercalate "\n\n".toList blocks) ∧
      blocks.length = (cleanLines "GOOD\nBAD".toList).length ∧
      blocks.getD 1 [] = errorBlock ((cleanLines "GOOD\nBAD".toList).getD 1 [])
        "boom".toList ∧
      ∀ j, j < (cleanLines "GOOD\nBAD".toList).length → j ≠ 1 →
        ∃ L a o, wFetch ((cleanLines "GOOD\nBAD".toList).getD j []) = .ok L ∧
          wAudit L.title (bulletsText L.bullets) L.description [] "kw".toList =
            .ok a ∧
          wRewrite L.title (bulletsText L.bullets) L.description [] "kw".toList
            "cat".toList "aud".toList a = .ok o ∧
          blocks.getD j [] = pyStrip (blockRaw
            ((cleanLines "GOOD\nBAD".toList).getD j []) L.asin L.title
            (bulletsText L.bullets) L.description a o) :=
  C6_batch_isolation wFetch wAudit wRewrite "GOOD\nBAD".toList "kw".toList
    "cat".toList "aud".toList 1 "boom".toList (by decide) (by rfl)
    (by
      intro j hj hne
      have hlen2 : (cleanLines "GOOD\nBAD".toList).length = 2 := by decide
      rw [hlen2] at hj
      interval_cases j
      · exact ⟨⟨"B0DJ33ZFJH".toList, "T".toList, [], "D".toList⟩, "AUD".toList,
          "OPT".toList, rfl, rfl, rfl⟩
      · exact absurd rfl hne)

/-- C8: errors of the external generation calls propagate uncaught: in the
manual flow an audit or rewrite error is the result of the whole call, and in
the batch flow a generation error on any line (after lines before it were
processed) is the result of the whole batch, with no retry and no partial
output; the per-item handler covers only the fetch step. -/
theorem C8_generation_error_propagation {γ : Type} :
    (∀ (auditO : List Char → List Char → List Char → List Char → List Char →
        Except γ (List Char))
      (rewriteO : List Char → List Char → List Char → List Char → List Char →
        List Char → List Char → List Char → Except γ (List Char))
      (title bullets description reviews kw cat aud : List Char) (g : γ),
      auditO title bullets description reviews kw = .error g →
      optimize_manual_ui auditO rewriteO title bullets description reviews kw
        cat aud = .error g) ∧
    (∀ (auditO : List Char → List Char → List Char → List Char → List Char →
        Except γ (List Char))
      (rewriteO : List Char → List Char → List Char → List Char → List Char →
        List Char → List Char → List Char → Except γ (List Char))
      (title bullets description reviews kw cat aud a : List Char) (g : γ),
      auditO title bullets description reviews kw = .ok a →
      rewriteO title bullets description reviews kw cat aud a = .error g →
      optimize_manual_ui auditO rewriteO title bullets description reviews kw
        cat aud = .error g) ∧
    (∀ (fetch : List Char → Except (List Char) KeepaListing)
      (auditO : List Char → List Char → List Char → List Char → List Char →
        Except γ (List Char))
      (rewriteO : List Char → List Char → List Char → List Char → List Char →
        List Char → List Char → List Char → Except γ (List Char))
      (kw cat aud identifier : List Char) (L : KeepaListing) (g : γ),
      fetch identifier = .ok L →
      auditO L.title (bulletsText L.bullets) L.description [] kw = .error g →
      processLine fetch auditO rewriteO kw cat aud identifier = .error g) ∧
    (∀ (fetch : List Char → Except (List Char) KeepaListing)
      (auditO : List Char → List Char → List Char → List Char → List Char →
        Except γ (List Char))
      (rewriteO : List Char → List Char → List Char → List Char → List Char →
        List Char → List Char → List Char → Except γ (List Char))
      (kw cat aud identifier : List Char) (L : KeepaListing) (a : List Char)
      (g : γ),
      fetch identifier = .ok L →
      auditO L.title (bulletsText L.bullets) L.description [] kw = .ok a →
      rewriteO L.title (bulletsText L.bullets) L.description [] kw cat aud a =
        .error g →
      processLine fetch auditO rewriteO kw cat aud identifier = .error g) ∧
    (∀ (fetch : List Char → Except (List Char) KeepaListing)
      (auditO : List Char → List Char → List Char → List Char → List Char →
        Except γ (List Char))
      (rewriteO : List Char → List Char → List Char → List Char → List Char →
        List Char → List Char → List Char → Except γ (List Char))
      (text kw cat aud : List Char) (k : Nat) (g : γ),
      k < (cleanLines text).length →
      (∀ j, j < k → ∃ b, processLine fetch auditO rewriteO kw cat aud
        ((cleanLines text).getD j []) = .ok b) →
      processLine fetch auditO rewriteO kw cat aud
        ((cleanLines text).getD k []) = .error g →
      optimize_from_identifiers_ui fetch auditO rewriteO text kw cat aud =
        .error g) := by
  refine ⟨?_, ?_, ?_, ?_, ?_⟩
  · intro auditO rewriteO title bullets description reviews kw cat aud g ha
    unfold optimize_manual_ui
    rw [ha]
  · intro auditO rewriteO title bullets description reviews kw cat aud a g ha ho
    unfold optimize_manual_ui
    rw [ha]
    dsimp only
    rw [ho]
  · intro fetch auditO rewriteO kw cat aud identifier L g hf ha
    exact processLine_audit_error _ _ _ _ _ _ _ _ _ hf ha
  · intro fetch auditO rewriteO kw cat aud identifier L a g hf ha ho
    exact processLine_rewrite_error _ _ _ _ _ _ _ _ _ _ hf ha ho
  · intro fetch auditO rewriteO text kw cat aud k g hk hprev herr
    have hempty : (cleanLines text).isEmpty = false := by
      cases hcl : cleanLines text with
      | nil => rw [hcl] at hk; simp at hk
      | cons y ys => rfl
    have hmap := mapExcept_error_of
      (processLine fetch auditO rewriteO kw cat aud) (cleanLines text) k g hk
      hprev herr
    simp only [optimize_from_identifiers_ui]
    rw [hempty]
    simp [hmap]

/-- C8 witness: a failing audit oracle makes the manual flow and a one-line
batch flow return exactly that error. -/
theorem C8_generation_error_propagation_witness :
    optimize_manual_ui wAuditErr wRewrite "t".toList "b".toList "d".toList
        "r".toList "kw".toList "cat".toList "aud".toList =
      .error "genfail".toList ∧
    optimize_from_identifiers_ui wFetch wAuditErr wRewrite "GOOD".toList
        "kw".toList "cat".toList "aud".toList = .error "genfail".toList :=
  ⟨C8_generation_error_propagation.1 wAuditErr wRewrite "t".toList "b".toList
      "d".toList "r".toList "kw".toList "cat".toList "aud".toList
      "genfail".toList rfl,
   C8_generation_error_propagation.2.2.2.2 wFetch wAuditErr wRewrite
      "GOOD".toList "kw".toList "cat".toList "aud".toList 0 "genfail".toList
      (by decide) (fun j hj => absurd hj (Nat.not_lt_zero j)) (by rfl)⟩

theorem isPlainAsin_length (s : List Char) (h : isPlainAsin s = true) :
    s.length = 10 := by
  simp only [isPlainAsin, Bool.and_eq_true, beq_iff_eq] at h
  exact h.1

theorem extract_asin_some_length (s t : List Char) (h : extract_asin s = some t) :
    t.length = 10 := by
  simp only [extract_asin] at h
  by_cases hplain : isPlainAsin (pyStrip s) = true
  · rw [if_pos hplain] at h
    have ht := Option.some.inj h
    rw [← ht, List.length_map]
    exact isPlainAsin_length _ hplain
  · rw [if_neg hplain] at h
    cases hsearch : reSearch dpGpMatchAt (pyStrip s) with
    | none =>
      rw [hsearch] at h
      exact Option.noConfusion h
    | some u =>
      rw [hsearch] at h
      obtain ⟨i, hi⟩ := reSearch_some_exists _ _ _ hsearch
      have hu := dpGpMatchAt_token_length _ _ hi
      have ht := Option.some.inj h
      rw [← ht, List.length_map]
      exact hu

theorem extract_asin_from_input_some_length (s t : List Char)
    (h : extract_asin_from_input s = some t) : t.length = 10 := by
  simp only [extract_asin_from_input] at h
  by_cases hplain : isPlainAsin (pyStrip s) = true
  · rw [if_pos hplain] at h
    have ht := Option.some.inj h
    rw [← ht, List.length_map]
    exact isPlainAsin_length _ hplain
  · rw [if_neg hplain] at h
    cases hdp : reSearch dpMatchAt (pyStrip s) with
    | some u =>
      rw [hdp] at h
      obtain ⟨i, hi⟩ := reSearch_some_exists _ _ _ hdp
      have hu := dpMatchAt_token_length _ _ hi
      have ht := Option.some.inj h
      rw [← ht, List.length_map]
      exact hu
    | none =>
      rw [hdp] at h
      cases hgp : reSearch gpMatchAt (pyStrip s) with
      | none =>
        rw [hgp] at h
        exact Option.noConfusion h
      | some u =>
        rw [hgp] at h
        obtain ⟨i, hi⟩ := reSearch_some_exists _ _ _ hgp
        have hu := gpMatchAt_token_length _ _ hi
        have ht := Option.some.inj h
        rw [← ht, List.length_map]
        exact hu

/-- C7: every record returned by the scraper fetch either has a non-empty
identifier and an empty error, or a non-empty error — never both; a 200
response whose page yields no title, no bullets and no description still
produces a valid record with all content fields empty and no error; and every
successful keepa fetch carries a (10-character, hence non-empty) identifier. -/
theorem C7_listing_record_invariant :
    (∀ (http : List Char → HtmlResponse) (identifier : List Char),
      ((fetch_listing http identifier).asin ≠ [] ∧
        (fetch_listing http identifier).error = []) ∨
      (fetch_listing http identifier).error ≠ []) ∧
    (∀ (http : List Char → HtmlResponse) (asin : List Char),
      (http asin).status = 200 →
      (http asin).page.productTitle = none →
      (http asin).page.featureBullets = [] →
      (http asin).page.productDescription = none →
      (http asin).page.bookDescription = none →
      fetch_listing_by_asin http asin = ⟨asin, [], [], [], []⟩) ∧
    (∀ (query : List Char → List Char → List KeepaProduct)
      (identifier domain : List Char) (L : KeepaListing),
      get_listing_from_keepa query identifier domain = .ok L →
      L.asin.length = 10) := by
  refine ⟨?_, ?_, ?_⟩
  · intro http identifier
    unfold fetch_listing
    cases hex : extract_asin identifier with
    | none =>
      right
      intro hnil
      simp at hnil
    | some asin =>
      have hlen := extract_asin_some_length identifier asin hex
      simp only [fetch_listing_by_asin]
      by_cases hst : (http asin).status ≠ 200
      · rw [if_pos hst]
        right
        intro hnil
        simp at hnil
      · rw [if_neg hst]
        dsimp only
        left
        exact ⟨List.ne_nil_of_length_pos (by omega), rfl⟩
  · intro http asin h200 htitle hbullets hpd hbd
    simp only [fetch_listing_by_asin]
    rw [if_neg (fun hc => hc h200)]
    rw [htitle, hbullets, hpd, hbd]
    rfl
  · intro query identifier domain L h
    unfold get_listing_from_keepa at h
    cases hex : extract_asin_from_input identifier with
    | none =>
      rw [hex] at h
      exact Except.noConfusion h
    | some asin =>
      rw [hex] at h
      dsimp only at h
      cases hq : query asin domain with
      | nil =>
        rw [hq] at h
        exact Except.noConfusion h
      | cons p ps =>
        rw [hq] at h
        have hL := Except.ok.inj h
        rw [← hL]
        exact extract_asin_from_input_some_length identifier asin hex

/-- C7 witness: a 200 response with an empty page gives the all-empty,
error-free record, and a keepa fetch of a plain token succeeds with the
10-character identifier. -/
theorem C7_listing_record_invariant_witness :
    fetch_listing_by_asin (fun _ => ⟨200, ⟨none, [], none, none⟩⟩)
        "B0DJ33ZFJH".toList =
      ⟨"B0DJ33ZFJH".toList, [], [], [], []⟩ ∧
    (⟨"B0DJ33ZFJH".toList, [], [], []⟩ : KeepaListing).asin.length = 10 :=
  ⟨C7_listing_record_invariant.2.1 (fun _ => ⟨200, ⟨none, [], none, none⟩⟩)
      "B0DJ33ZFJH".toList rfl rfl rfl rfl rfl,
   C7_listing_record_invariant.2.2 (fun _ _ => [⟨none, none, none⟩])
      "B0DJ33ZFJH".toList "US".toList ⟨"B0DJ33ZFJH".toList, [], [], []⟩ rfl⟩

/-- C9: export_manual_result raises the user-visible error exactly when both
the audit text and the optimized text are empty, writing no file in that case;
when at least one text is non-empty it writes the file and returns its path. -/
theorem C9_export_error_iff (tmpdir : List Char) (now : PyDateTime)
    (audit_text optimized_text : List Char) :
    ((∃ m, export_manual_result tmpdir now audit_text optimized_text =
        .error m) ↔ (audit_text = [] ∧ optimized_text = [])) ∧
    (audit_text = [] ∧ optimized_text = [] →
      ∀ p c, export_manual_result tmpdir now audit_text optimized_text ≠
        .ok (p, c)) ∧
    (¬(audit_text = [] ∧ optimized_text = []) →
      ∃ p c, export_manual_result tmpdir now audit_text optimized_text =
        .ok (p, c)) := by
  have hcond : (audit_text.isEmpty && optimized_text.isEmpty) = true ↔
      (audit_text = [] ∧ optimized_text = []) := by
    simp [List.isEmpty_iff]
  by_cases hc : audit_text = [] ∧ optimized_text = []
  · have htrue : (audit_text.isEmpty && optimized_text.isEmpty) = true :=
      hcond.mpr hc
    refine ⟨⟨fun _ => hc, fun _ => ?_⟩, fun _ p c hpc => ?_, fun hn => absurd hc hn⟩
    · refine ⟨"No results to export. Run an optimization first.".toList, ?_⟩
      simp only [export_manual_result]
      rw [if_pos htrue]
    · rw [show export_manual_result tmpdir now audit_text optimized_text =
          .error "No results to export. Run an optimization first.".toList from by
        simp only [export_manual_result]; rw [if_pos htrue]] at hpc
      exact Except.noConfusion hpc
  · have hfalse : (audit_text.isEmpty && optimized_text.isEmpty) = false := by
      rw [Bool.eq_false_iff]
      intro htrue
      exact hc (hcond.mp htrue)
    have hok : export_manual_result tmpdir now audit_text optimized_text =
        .ok (tmpdir ++ '/' :: ("listing_manual_".toList ++ strftimeTs now ++
            ".txt".toList),
          "=== AUDIT ===\n\n".toList ++ audit_text ++
            "\n\n=== OPTIMIZED LISTING ===\n\n".toList ++ optimized_text ++
            ['\n']) := by
      simp only [export_manual_result]
      rw [if_neg (by rw [hfalse]; exact fun hx => Bool.noConfusion hx)]
    refine ⟨⟨fun ⟨m, hm⟩ => ?_, fun h => absurd h hc⟩, fun h => absurd h hc,
      fun _ => ⟨_, _, hok⟩⟩
    rw [hok] at hm
    exact Except.noConfusion hm

/-- C9 witness: with both texts empty export errors, with a non-empty audit
text it returns a path. -/
theorem C9_export_error_iff_witness :
    (∃ m, export_manual_result "/tmp".toList ⟨2026, 10, 12, 1, 2, 3⟩ [] [] =
      .error m) ∧
    ∃ p c, export_manual_result "/tmp".toList ⟨2026, 10, 12, 1, 2, 3⟩
      "A".toList [] = .ok (p, c) :=
  ⟨(C9_export_error_iff "/tmp".toList ⟨2026, 10, 12, 1, 2, 3⟩ [] []).1.mpr
      ⟨rfl, rfl⟩,
   (C9_export_error_iff "/tmp".toList ⟨2026, 10, 12, 1, 2, 3⟩ "A".toList
      []).2.2 (fun h => List.noConfusion h.1)⟩

/-- C10: a successful export writes one file whose content is exactly the two
section markers with the audit and rewrite texts verbatim, and whose name is
`listing_manual_<timestamp>.txt` with a 8-digits, dash, 6-digits timestamp
(YYYYMMDD-HHMMSS). -/
theorem C10_export_content_and_name (tmpdir : List Char) (now : PyDateTime)
    (a o : List Char) (ha : a ≠ []) (_ho : o ≠ [])
    (hy : now.year < 10000) (hmo : now.month < 100) (hd : now.day < 100)
    (hh : now.hour < 100) (hmi : now.minute < 100) (hs : now.second < 100) :
    ∃ ts d8 d6 : List Char,
      export_manual_result tmpdir now a o =
        .ok (tmpdir ++ '/' :: ("listing_manual_".toList ++ ts ++ ".txt".toList),
          "=== AUDIT ===\n\n".toList ++ a ++
            "\n\n=== OPTIMIZED LISTING ===\n\n".toList ++ o ++ ['\n']) ∧
      ts = d8 ++ '-' :: d6 ∧ d8.length = 8 ∧ d6.length = 6 ∧
      d8.all Char.isDigit = true ∧ d6.all Char.isDigit = true := by
  have hcond : (a.isEmpty && o.isEmpty) = false := by
    cases a with
    | nil => exact absurd rfl ha
    | cons x xs => rfl
  have l1 : (padZeros 4 (natToDigits now.year)).length = 4 :=
    padZeros_length _ _ (natToDigits_length_le 4 _
      (by rw [show (10 : Nat) ^ 4 = 10000 from by norm_num]; exact hy)
      (by omega))
  have l2 : (padZeros 2 (natToDigits now.month)).length = 2 :=
    padZeros_length _ _ (natToDigits_length_le 2 _
      (by rw [show (10 : Nat) ^ 2 = 100 from by norm_num]; exact hmo) (by omega))
  have l3 : (padZeros 2 (natToDigits now.day)).length = 2 :=
    padZeros_length _ _ (natToDigits_length_le 2 _
      (by rw [show (10 : Nat) ^ 2 = 100 from by norm_num]; exact hd) (by omega))
  have l4 : (padZeros 2 (natToDigits now.hour)).length = 2 :=
    padZeros_length _ _ (natToDigits_length_le 2 _
      (by rw [show (10 : Nat) ^ 2 = 100 from by norm_num]; exact hh) (by omega))
  have l5 : (padZeros 2 (natToDigits now.minute)).length = 2 :=
    padZeros_length _ _ (natToDigits_length_le 2 _
      (by rw [show (10 : Nat) ^ 2 = 100 from by norm_num]; exact hmi) (by omega))
  have l6 : (padZeros 2 (natToDigits now.second)).length = 2 :=
    padZeros_length _ _ (natToDigits_length_le 2 _
      (by rw [show (10 : Nat) ^ 2 = 100 from by norm_num]; exact hs) (by omega))
  refine ⟨strftimeTs now,
    padZeros 4 (natToDigits now.year) ++ padZeros 2 (natToDigits now.month) ++
      padZeros 2 (natToDigits now.day),
    padZeros 2 (natToDigits now.hour) ++ padZeros 2 (natToDigits now.minute) ++
      padZeros 2 (natToDigits now.second), ?_, ?_, ?_, ?_, ?_, ?_⟩
  · simp only [export_manual_result]
    rw [if_neg (by rw [hcond]; exact fun hx => Bool.noConfusion hx)]
  · simp [strftimeTs, List.append_assoc]
  · simp [List.length_append, l1, l2, l3]
  · simp [List.length_append, l4, l5, l6]
  · simp [List.all_append,
      padZeros_all_digits _ _ (natToDigits_all_digits now.year),
      padZeros_all_digits _ _ (natToDigits_all_digits now.month),
      padZeros_all_digits _ _ (natToDigits_all_digits now.day)]
  · simp [List.all_append,
      padZeros_all_digits _ _ (natToDigits_all_digits now.hour),
      padZeros_all_digits _ _ (natToDigits_all_digits now.minute),
      padZeros_all_digits _ _ (natToDigits_all_digits now.second)]

/-- C10 witness: a concrete successful export. -/
theorem C10_export_content_and_name_witness :
    ∃ ts d8 d6 : List Char,
      export_manual_result "/tmp".toList ⟨2026, 10, 12, 13, 59, 58⟩ "A".toList
          "B".toList =
        .ok ("/tmp".toList ++ '/' :: ("listing_manual_".toList ++ ts ++
            ".txt".toList),
          "=== AUDIT ===\n\n".toList ++ "A".toList ++
            "\n\n=== OPTIMIZED LISTING ===\n\n".toList ++ "B".toList ++
            ['\n']) ∧
      ts = d8 ++ '-' :: d6 ∧ d8.length = 8 ∧ d6.length = 6 ∧
      d8.all Char.isDigit = true ∧ d6.all Char.isDigit = true :=
  C10_export_content_and_name "/tmp".toList ⟨2026, 10, 12, 13, 59, 58⟩
    "A".toList "B".toList (by decide) (by decide) (by decide) (by decide)
    (by decide) (by decide) (by decide) (by decide)
